import Mathlib

/-!
Shallow embedding of the vault-unsealer daemon (src/unsealer.go).

The daemon's interaction with the network is modelled by oracles: an `Env`
records, for one invocation of `Unsealer.unseal`, the outcome of the first
health probe, of each intermediate health re-probe (indexed by the key index
at which it is issued), and of each key-submission request (indexed by the
0-based key index).  Counters are modelled as deltas (the Go code only ever
increments them atomically).
-/

namespace VaultUnsealer

/-- Outcome of one health probe (`GET {addr}/v1/sys/health`):
request construction error, transport error, or an HTTP status code. -/
inductive HealthOutcome where
  | reqErr
  | transportErr
  | status (code : Nat)
deriving DecidableEq, Repr

/-- Outcome of one key submission (`PUT {addr}/v1/sys/unseal`):
JSON-marshal error, request-construction error, transport error,
undecodable response body, a decoded body whose "sealed" field is absent or
not a boolean, or a decoded body with boolean "sealed" field. -/
inductive SubmitOutcome where
  | marshalErr
  | reqErr
  | transportErr
  | decodeErr
  | noSealedField
  | sealedField (sealed : Bool)
deriving DecidableEq, Repr

/-- The network's responses during one invocation of `Unsealer.unseal`. -/
structure Env where
  firstProbe : HealthOutcome
  reprobe : Nat → HealthOutcome
  submit : Nat → SubmitOutcome

/-- `switch resp.StatusCode { case 200, 429, 472, 473: ... }` -/
def isAcceptable (code : Nat) : Bool :=
  code == 200 || code == 429 || code == 472 || code == 473

/-- Result of the key-submission loop of `Unsealer.unseal`:
whether the loop returned success, how many key-submission requests were
actually executed (`u.client.Do` on the PUT), and how many loop iterations
were entered. -/
structure LoopResult where
  ok : Bool
  submissions : Nat
  processed : Nat
deriving DecidableEq, Repr

/-- The health re-probe guard at the top of the key loop body
(src/unsealer.go lines 293-307): for `i > 0` the health endpoint is probed
again and an acceptable status means quorum was reached by a concurrent
actor; request errors, transport errors and any other status fall through
to the key submission. -/
def quorumProbe (env : Env) (i : Nat) : Bool :=
  if i > 0 then
    match env.reprobe i with
    | .status c => isAcceptable c
    | _ => false
  else false

/-- The `for i, key := range keys` loop of `Unsealer.unseal`
(src/unsealer.go lines 292-340).  For `i > 0` the health endpoint is
re-probed first; an acceptable status there is quorum reached by a
concurrent actor and stops the loop with success.  Marshal, request and
transport errors and undecodable responses `continue` to the next key; a
decoded body with `sealed == false` stops with success. -/
def keyLoop (env : Env) : List String → Nat → LoopResult
  | [], _ => ⟨false, 0, 0⟩
  | _key :: rest, i =>
    if quorumProbe env i then ⟨true, 0, 1⟩
    else
      match env.submit i with
      | .marshalErr =>
        let r := keyLoop env rest (i + 1)
        ⟨r.ok, r.submissions, r.processed + 1⟩
      | .reqErr =>
        let r := keyLoop env rest (i + 1)
        ⟨r.ok, r.submissions, r.processed + 1⟩
      | .transportErr =>
        let r := keyLoop env rest (i + 1)
        ⟨r.ok, r.submissions + 1, r.processed + 1⟩
      | .decodeErr =>
        let r := keyLoop env rest (i + 1)
        ⟨r.ok, r.submissions + 1, r.processed + 1⟩
      | .noSealedField =>
        let r := keyLoop env rest (i + 1)
        ⟨r.ok, r.submissions + 1, r.processed + 1⟩
      | .sealedField sealed =>
        if sealed then
          let r := keyLoop env rest (i + 1)
          ⟨r.ok, r.submissions + 1, r.processed + 1⟩
        else ⟨true, 1, 1⟩

/-- Result of one invocation of `Unsealer.unseal`: whether it returned `nil`,
the deltas it applied to the `attempts` and `successes` counters, the number
of key-submission requests executed and the number of key-loop iterations
entered.  (`Unsealer.unseal` never touches the `failures` counter.) -/
structure UnsealResult where
  ok : Bool
  attemptsD : Nat
  successesD : Nat
  submissions : Nat
  processed : Nat
deriving DecidableEq, Repr

/-- `Unsealer.unseal` (src/unsealer.go lines 264-343).  First health probe:
request or transport error, or a status other than 200/429/472/473/503,
returns an error; an acceptable status returns `nil` untouched; 503
increments `attempts` and runs the key loop over the captured snapshot.
`successes` is incremented exactly on the loop's success returns. -/
def unsealRun (env : Env) (keys : List String) : UnsealResult :=
  match env.firstProbe with
  | .reqErr => ⟨false, 0, 0, 0, 0⟩
  | .transportErr => ⟨false, 0, 0, 0, 0⟩
  | .status c =>
    if isAcceptable c then ⟨true, 0, 0, 0, 0⟩
    else if c = 503 then
      let r := keyLoop env keys 0
      ⟨r.ok, 1, if r.ok then 1 else 0, r.submissions, r.processed⟩
    else ⟨false, 0, 0, 0, 0⟩

/-- Result of `Unsealer.unsealWithRetry`: whether some attempt succeeded,
the counter deltas of the whole run, how many times `Unsealer.unseal` was
invoked, the backoff durations (in seconds) fully slept between attempts,
and whether the run returned early because the cancellation context fired
during a backoff sleep. -/
structure RetryResult where
  succeeded : Bool
  attemptsD : Nat
  successesD : Nat
  failuresD : Nat
  submissionsD : Nat
  attemptsRun : Nat
  sleeps : List Nat
  aborted : Bool
deriving DecidableEq, Repr

/-- The `for i := 0; i < 3; i++` loop of `Unsealer.unsealWithRetry`
(src/unsealer.go lines 247-261), as a recursion on the remaining iteration
count (`fuel`; the loop starts with `fuel = 3`, `i = 0`, `backoff = 1`).
A successful `unseal` returns at once.  A failed non-final iteration
(`i < 2`) selects on the cancellation context versus the backoff timer:
a fired context returns without touching `failures`, otherwise the backoff
is slept and doubled.  When the loop exhausts its iterations, `failures` is
incremented exactly once.  `done i` tells whether the context is done during
the sleep following attempt `i`. -/
def retryAux (aenv : Nat → Env) (done : Nat → Bool) (keys : List String) :
    Nat → Nat → Nat → RetryResult
  | 0, _, _ => ⟨false, 0, 0, 1, 0, 0, [], false⟩
  | fuel + 1, i, backoff =>
    let r := unsealRun (aenv i) keys
    if r.ok then
      ⟨true, r.attemptsD, r.successesD, 0, r.submissions, 1, [], false⟩
    else if fuel = 0 then
      ⟨false, r.attemptsD, r.successesD, 1, r.submissions, 1, [], false⟩
    else if done i then
      ⟨false, r.attemptsD, r.successesD, 0, r.submissions, 1, [], true⟩
    else
      let rest := retryAux aenv done keys fuel (i + 1) (backoff * 2)
      ⟨rest.succeeded, r.attemptsD + rest.attemptsD,
       r.successesD + rest.successesD, rest.failuresD,
       r.submissions + rest.submissionsD, 1 + rest.attemptsRun,
       backoff :: rest.sleeps, rest.aborted⟩

/-- `Unsealer.unsealWithRetry` after the in-flight guard has been acquired:
the retry loop with 3 iterations, starting at `backoff = 1` second.
`aenv i` is the network's behaviour during outer attempt `i`. -/
def unsealWithRetry (aenv : Nat → Env) (done : Nat → Bool)
    (keys : List String) : RetryResult :=
  retryAux aenv done keys 3 0 1

/-- Outcome of one `u.bw.Secrets().Get(keyID)` call: a value, or an error
whose message does (`isAuth = true`) or does not contain
"unauthorized"/"auth". -/
inductive GetResult where
  | ok (value : String)
  | err (isAuth : Bool)
deriving DecidableEq, Repr

/-- Outcome of `u.initBitwardenClient()` when invoked for a re-login. -/
inductive ReloginOutcome where
  | ok
  | err
deriving DecidableEq, Repr

/-- The environment of one `Unsealer.doFetchKeys` call chain: the values of
the `UNSEAL_KEY_i` environment variables (`none` models unset, which
`os.Getenv` reports as the empty string), the secrets-manager responses
`get depth i` (indexed by the recursion depth of the pass making the call,
`1` before any re-login and `0` after it, and the key number `i ∈ 1..4`),
and the outcome of the single permitted re-login. -/
structure FetchEnv where
  ids : Nat → Option String
  get : Nat → Nat → GetResult
  relogin : ReloginOutcome

/-- Result of the `for i := 1; i <= 4; i++` loop body of
`Unsealer.doFetchKeys`: all four keys fetched, a plain error, or an
authentication error that the caller may answer with a re-login
(only produced when `allowRelogin` holds). -/
inductive FetchLoopRes where
  | ok (keys : List String)
  | err
  | authErr
deriving DecidableEq, Repr

/-- The fetch loop of `Unsealer.doFetchKeys` (src/unsealer.go lines
170-192): for each key number `i`, an unset `UNSEAL_KEY_i` aborts; an auth
error from the secrets manager with `allowRelogin` set escapes to the
re-login path; any other error, or an empty secret value, aborts; otherwise
the value is appended.  `remaining` counts the loop iterations left. -/
def fetchLoop (get : Nat → GetResult) (ids : Nat → Option String)
    (allowRelogin : Bool) : Nat → Nat → List String → FetchLoopRes
  | _, 0, acc => .ok acc
  | i, remaining + 1, acc =>
    match ids i with
    | none => .err
    | some _ =>
      match get i with
      | .err isAuth => if allowRelogin && isAuth then .authErr else .err
      | .ok v =>
        if v = "" then .err
        else fetchLoop get ids allowRelogin (i + 1) remaining (acc ++ [v])

/-- Result of `Unsealer.doFetchKeys`: whether it returned `nil`, the key
cache after the call, the number of re-logins performed and the number of
full fetch passes run. -/
structure FetchResult where
  ok : Bool
  cache : List String
  relogins : Nat
  passes : Nat
deriving DecidableEq, Repr

/-- `Unsealer.doFetchKeys` (src/unsealer.go lines 165-200), recursing on the
permitted re-login depth (`1` when `allowRelogin` is true).  The cache is
assigned only at the end of a fully successful pass, in one swap under the
write lock; every error path returns with the cache untouched.  On the first
auth error with re-login allowed the client re-logs-in once and the whole
fetch is redone with `allowRelogin = false`. -/
def doFetchKeys (fenv : FetchEnv) : Nat → List String → FetchResult
  | 0, cache =>
    match fetchLoop (fenv.get 0) fenv.ids false 1 4 [] with
    | .ok ks => ⟨true, ks, 0, 1⟩
    | .err => ⟨false, cache, 0, 1⟩
    | .authErr => ⟨false, cache, 0, 1⟩
  | depth + 1, cache =>
    match fetchLoop (fenv.get (depth + 1)) fenv.ids true 1 4 [] with
    | .ok ks => ⟨true, ks, 0, 1⟩
    | .err => ⟨false, cache, 0, 1⟩
    | .authErr =>
      match fenv.relogin with
      | .err => ⟨false, cache, 0, 1⟩
      | .ok =>
        let rest := doFetchKeys fenv depth cache
        ⟨rest.ok, rest.cache, rest.relogins + 1, rest.passes + 1⟩

/-- `Unsealer.fetchKeys` (src/unsealer.go lines 161-163):
`doFetchKeys` with re-login allowed. -/
def fetchKeys (fenv : FetchEnv) (cache : List String) : FetchResult :=
  doFetchKeys fenv 1 cache

/-- `getEnv` (src/unsealer.go lines 396-401) applied to the raw string
`os.Getenv` returns (empty when the variable is unset or set empty). -/
def getEnvD (raw fallback : String) : String :=
  if raw ≠ "" then raw else fallback

/-- `verifyCert := getEnv("VERIFY_CERT", "true") == "true"`
(src/unsealer.go line 69), as a function of the raw `VERIFY_CERT` value. -/
def verifyCert (raw : String) : Bool :=
  getEnvD raw "true" == "true"

/-- `TLSClientConfig: &tls.Config{InsecureSkipVerify: !verifyCert}`
(src/unsealer.go line 84): certificate verification is skipped for all
target connections exactly when `verifyCert` is false. -/
def insecureSkipVerify (raw : String) : Bool :=
  !verifyCert raw

/-! Helper lemmas shared by several claims. -/

/-- A re-probe that reports 503 never signals quorum. -/
lemma quorumProbe_of_reprobe_503 (env : Env) (i : Nat)
    (h : env.reprobe i = .status 503) : quorumProbe env i = false := by
  unfold quorumProbe
  rcases Nat.eq_zero_or_pos i with hi | hi
  · simp [hi]
  · simp [Nat.pos_iff_ne_zero.mp hi, h, isAcceptable]

/-- When every re-probe reports 503 and every submission response still
reports `sealed = true`, the key loop submits every key and fails. -/
lemma keyLoop_all_sealed (env : Env)
    (hre : ∀ j, env.reprobe j = .status 503)
    (hsub : ∀ j, env.submit j = .sealedField true) :
    ∀ (keys : List String) (i : Nat),
      keyLoop env keys i = ⟨false, keys.length, keys.length⟩ := by
  intro keys
  induction keys with
  | nil => intro i; rfl
  | cons x rest ih =>
    intro i
    simp [keyLoop, quorumProbe_of_reprobe_503 env i (hre i), hsub i, ih (i + 1)]

/-- Under the all-sealed network of `keyLoop_all_sealed`, a single
`Unsealer.unseal` invocation increments `attempts` by 1 and fails. -/
lemma unsealRun_all_sealed (env : Env)
    (hfp : env.firstProbe = .status 503)
    (hre : ∀ j, env.reprobe j = .status 503)
    (hsub : ∀ j, env.submit j = .sealedField true)
    (keys : List String) :
    unsealRun env keys = ⟨false, 1, 0, keys.length, keys.length⟩ := by
  simp [unsealRun, hfp, isAcceptable, keyLoop_all_sealed env hre hsub keys 0]

/-! Claims. -/

/-- Claim C1, counterexample: in the scenario where every health probe of
every outer attempt returns 503 and every key-submission response reports
`sealed = true`, the whole run increments the `attempts` counter by 3 —
once per outer attempt — not by 1 as the claim states (while `failures`
does increase by 1 and `successes` by 0). -/
theorem C1_counterexample :
    (unsealWithRetry
        (fun _ => ⟨.status 503, fun _ => .status 503,
          fun _ => .sealedField true⟩)
        (fun _ => false) ["k1", "k2", "k3", "k4"]).attemptsD = 3 ∧
    ¬ (unsealWithRetry
        (fun _ => ⟨.status 503, fun _ => .status 503,
          fun _ => .sealedField true⟩)
        (fun _ => false) ["k1", "k2", "k3", "k4"]).attemptsD = 1 := by
  constructor
  · rfl
  · decide

/-- Claim C1, amended: for a protocol run in which the target's health
probe returns 503 at every probe of every outer attempt, every
key-submission response reports `sealed = true`, and the cancellation
context never fires, the `attempts` counter increases by exactly 3 (once
per outer attempt), `failures` increases by exactly 1, and `successes`
by 0. -/
theorem C1_attempts_once_per_outer_attempt
    (aenv : Nat → Env) (done : Nat → Bool) (keys : List String)
    (hfp : ∀ i, (aenv i).firstProbe = .status 503)
    (hre : ∀ i j, (aenv i).reprobe j = .status 503)
    (hsub : ∀ i j, (aenv i).submit j = .sealedField true)
    (hdone : ∀ i, done i = false) :
    (unsealWithRetry aenv done keys).attemptsD = 3 ∧
    (unsealWithRetry aenv done keys).failuresD = 1 ∧
    (unsealWithRetry aenv done keys).successesD = 0 := by
  have h0 := unsealRun_all_sealed (aenv 0) (hfp 0) (hre 0) (hsub 0) keys
  have h1 := unsealRun_all_sealed (aenv 1) (hfp 1) (hre 1) (hsub 1) keys
  have h2 := unsealRun_all_sealed (aenv 2) (hfp 2) (hre 2) (hsub 2) keys
  simp [unsealWithRetry, retryAux, h0, h1, h2, hdone]

/-- Claim C1, witness for the amended theorem at a concrete all-sealed
network with four keys. -/
theorem C1_attempts_once_per_outer_attempt_witness :
    (unsealWithRetry
        (fun _ => ⟨.status 503, fun _ => .status 503,
          fun _ => .sealedField true⟩)
        (fun _ => false) ["k1", "k2", "k3", "k4"]).attemptsD = 3 ∧
    (unsealWithRetry
        (fun _ => ⟨.status 503, fun _ => .status 503,
          fun _ => .sealedField true⟩)
        (fun _ => false) ["k1", "k2", "k3", "k4"]).failuresD = 1 ∧
    (unsealWithRetry
        (fun _ => ⟨.status 503, fun _ => .status 503,
          fun _ => .sealedField true⟩)
        (fun _ => false) ["k1", "k2", "k3", "k4"]).successesD = 0 :=
  C1_attempts_once_per_outer_attempt _ _ _
    (fun _ => rfl) (fun _ _ => rfl) (fun _ _ => rfl) (fun _ => rfl)

/-- Claim C2: when every attempt of the CheckHealth→Unseal sequence fails
and the cancellation context never fires, the retry loop executes exactly 3
attempts, fully sleeps backoffs of 1 and 2 time units between consecutive
attempts, and increments the `failures` counter by exactly 1, only after
the final attempt (no early failure increment, no abort). -/
theorem C2_retry_exhaustion
    (aenv : Nat → Env) (done : Nat → Bool) (keys : List String)
    (hfail : ∀ i, (unsealRun (aenv i) keys).ok = false)
    (hdone : ∀ i, done i = false) :
    (unsealWithRetry aenv done keys).attemptsRun = 3 ∧
    (unsealWithRetry aenv done keys).sleeps = [1, 2] ∧
    (unsealWithRetry aenv done keys).failuresD = 1 ∧
    (unsealWithRetry aenv done keys).aborted = false := by
  simp [unsealWithRetry, retryAux, hfail, hdone]

/-- Claim C2, witness at a concrete network that reports 503 everywhere and
answers every submission with `sealed = true`. -/
theorem C2_retry_exhaustion_witness :
    (unsealWithRetry
        (fun _ => ⟨.status 503, fun _ => .status 503,
          fun _ => .sealedField true⟩)
        (fun _ => false) ["w1", "w2", "w3", "w4"]).attemptsRun = 3 ∧
    (unsealWithRetry
        (fun _ => ⟨.status 503, fun _ => .status 503,
          fun _ => .sealedField true⟩)
        (fun _ => false) ["w1", "w2", "w3", "w4"]).sleeps = [1, 2] ∧
    (unsealWithRetry
        (fun _ => ⟨.status 503, fun _ => .status 503,
          fun _ => .sealedField true⟩)
        (fun _ => false) ["w1", "w2", "w3", "w4"]).failuresD = 1 ∧
    (unsealWithRetry
        (fun _ => ⟨.status 503, fun _ => .status 503,
          fun _ => .sealedField true⟩)
        (fun _ => false) ["w1", "w2", "w3", "w4"]).aborted = false :=
  C2_retry_exhaustion _ _ _ (fun _ => rfl) (fun _ => rfl)

/-- Claim C6: a protocol run whose first health probe returns 200, 429, 472
or 473 terminates successfully at once: one `unseal` invocation, zero key
submissions, no backoff sleeps, and the `attempts`, `successes` and
`failures` counters all unchanged. -/
theorem C6_acceptable_health_no_action
    (aenv : Nat → Env) (done : Nat → Bool) (keys : List String) (c : Nat)
    (hfp : (aenv 0).firstProbe = .status c)
    (hc : c = 200 ∨ c = 429 ∨ c = 472 ∨ c = 473) :
    unsealWithRetry aenv done keys =
      ⟨true, 0, 0, 0, 0, 1, [], false⟩ := by
  have hacc : isAcceptable c = true := by
    rcases hc with h | h | h | h <;> simp [h, isAcceptable]
  have hrun : unsealRun (aenv 0) keys = ⟨true, 0, 0, 0, 0⟩ := by
    simp [unsealRun, hfp, hacc]
  simp [unsealWithRetry, retryAux, hrun]

/-- Claim C6, witness: a first probe answering 429 ends the run with all
counters untouched. -/
theorem C6_acceptable_health_no_action_witness :
    unsealWithRetry
        (fun _ => ⟨.status 429, fun _ => .status 503,
          fun _ => .sealedField true⟩)
        (fun _ => false) ["k1", "k2", "k3", "k4"] =
      ⟨true, 0, 0, 0, 0, 1, [], false⟩ :=
  C6_acceptable_health_no_action _ _ _ 429 rfl (by decide)

/-- Claim C9: if the cancellation context becomes done during the backoff
sleep that follows failed attempt `j` (with `j < 2`, all attempts up to `j`
failed and no earlier sleep interrupted), the run returns immediately:
exactly `j + 1` attempts were executed, the `failures` counter is not
incremented, and the run is marked as aborted by cancellation. -/
theorem C9_cancelled_backoff_aborts
    (aenv : Nat → Env) (done : Nat → Bool) (keys : List String) (j : Nat)
    (hj : j < 2)
    (hfail : ∀ i, i ≤ j → (unsealRun (aenv i) keys).ok = false)
    (hbefore : ∀ i, i < j → done i = false)
    (hat : done j = true) :
    (unsealWithRetry aenv done keys).attemptsRun = j + 1 ∧
    (unsealWithRetry aenv done keys).failuresD = 0 ∧
    (unsealWithRetry aenv done keys).aborted = true := by
  interval_cases j
  · simp [unsealWithRetry, retryAux, hfail 0 (by omega), hat]
  · simp [unsealWithRetry, retryAux, hfail 0 (by omega), hfail 1 (by omega),
      hbefore 0 (by omega), hat]

/-- Claim C9, witness: cancellation firing during the first backoff sleep
stops the run after a single attempt with no failure increment. -/
theorem C9_cancelled_backoff_aborts_witness :
    (unsealWithRetry
        (fun _ => ⟨.status 503, fun _ => .status 503,
          fun _ => .sealedField true⟩)
        (fun i => i = 0) ["k1", "k2", "k3", "k4"]).attemptsRun = 0 + 1 ∧
    (unsealWithRetry
        (fun _ => ⟨.status 503, fun _ => .status 503,
          fun _ => .sealedField true⟩)
        (fun i => i = 0) ["k1", "k2", "k3", "k4"]).failuresD = 0 ∧
    (unsealWithRetry
        (fun _ => ⟨.status 503, fun _ => .status 503,
          fun _ => .sealedField true⟩)
        (fun i => i = 0) ["k1", "k2", "k3", "k4"]).aborted = true :=
  C9_cancelled_backoff_aborts _ _ _ 0 (by omega)
    (fun i _ => by interval_cases i; rfl) (fun i hi => by omega) (by decide)

/-- When re-probes up to key `k` report 503, submissions before relative
index `k` answer `sealed = true` and the submission at `k` answers
`sealed = false`, the key loop started at absolute index `i` stops with
success after exactly `k + 1` submissions. -/
lemma keyLoop_succeeds_at (env : Env) :
    ∀ (keys : List String) (i k : Nat), k < keys.length →
    (∀ j, 0 < i + j → j ≤ k → env.reprobe (i + j) = .status 503) →
    (∀ j, j < k → env.submit (i + j) = .sealedField true) →
    env.submit (i + k) = .sealedField false →
    keyLoop env keys i = ⟨true, k + 1, k + 1⟩ := by
  intro keys
  induction keys with
  | nil => intro i k hk; simp at hk
  | cons x rest ih =>
    intro i k hk hre hst hsk
    have hq : quorumProbe env i = false := by
      unfold quorumProbe
      rcases Nat.eq_zero_or_pos i with hi | hi
      · simp [hi]
      · have h503 : env.reprobe i = .status 503 := by
          have := hre 0 (by omega) (Nat.zero_le _)
          simpa using this
        simp [Nat.pos_iff_ne_zero.mp hi, h503, isAcceptable]
    match k with
    | 0 =>
      have hs0 : env.submit i = .sealedField false := by simpa using hsk
      simp [keyLoop, hq, hs0]
    | k' + 1 =>
      have hs0 : env.submit i = .sealedField true := by
        have := hst 0 (by omega)
        simpa using this
      have hrest : keyLoop env rest (i + 1) = ⟨true, k' + 1, k' + 1⟩ := by
        apply ih (i + 1) k' (by simpa using hk)
        · intro j hj hjk
          have heq : i + 1 + j = i + (j + 1) := by omega
          rw [heq]
          exact hre (j + 1) (by omega) (by omega)
        · intro j hj
          have heq : i + 1 + j = i + (j + 1) := by omega
          rw [heq]
          exact hst (j + 1) (by omega)
        · have heq : i + 1 + k' = i + (k' + 1) := by omega
          rw [heq]
          exact hsk
      simp [keyLoop, hq, hs0, hrest]

/-- Claim C7: a protocol run that observes 503 on the first probe, whose
intermediate re-probes up to key `k` still report 503, and whose
submissions answer `sealed = true` before 0-based index `k` and
`sealed = false` at `k`, submits exactly `k + 1` keys, increments
`attempts` by 1 and `successes` by exactly 1, and returns success in a
single outer attempt. -/
theorem C7_success_at_index_k
    (aenv : Nat → Env) (done : Nat → Bool) (keys : List String) (k : Nat)
    (hk : k < keys.length)
    (hfp : (aenv 0).firstProbe = .status 503)
    (hre : ∀ j, 0 < j → j ≤ k → (aenv 0).reprobe j = .status 503)
    (hst : ∀ j, j < k → (aenv 0).submit j = .sealedField true)
    (hsk : (aenv 0).submit k = .sealedField false) :
    unsealWithRetry aenv done keys =
      ⟨true, 1, 1, 0, k + 1, 1, [], false⟩ := by
  have hloop : keyLoop (aenv 0) keys 0 = ⟨true, k + 1, k + 1⟩ := by
    apply keyLoop_succeeds_at (aenv 0) keys 0 k hk
    · intro j hj hjk
      have heq : 0 + j = j := by omega
      rw [heq]
      exact hre j (by simpa using hj) hjk
    · intro j hj
      have := hst j hj
      simpa using this
    · simpa using hsk
  have hrun : unsealRun (aenv 0) keys = ⟨true, 1, 1, k + 1, k + 1⟩ := by
    simp [unsealRun, hfp, isAcceptable, hloop]
  simp [unsealWithRetry, retryAux, hrun]

/-- Claim C7, witness: with four keys, re-probes reporting 503 and the
submission at index 2 answering `sealed = false`, the run submits exactly 3
keys and counts one success. -/
theorem C7_success_at_index_k_witness :
    unsealWithRetry
        (fun _ => ⟨.status 503, fun _ => .status 503,
          fun i => if i < 2 then .sealedField true
            else if i = 2 then .sealedField false else .transportErr⟩)
        (fun _ => false) ["k1", "k2", "k3", "k4"] =
      ⟨true, 1, 1, 0, 2 + 1, 1, [], false⟩ :=
  C7_success_at_index_k _ _ _ 2 (by decide) rfl
    (fun j _ _ => rfl) (fun j hj => by interval_cases j <;> rfl) (by decide)

/-- A key loop that returns failure has entered an iteration for every key
of the snapshot: no per-key error path terminates the loop early. -/
lemma keyLoop_fail_processed_all (env : Env) :
    ∀ (keys : List String) (i : Nat), (keyLoop env keys i).ok = false →
    (keyLoop env keys i).processed = keys.length := by
  intro keys
  induction keys with
  | nil => intro i _; rfl
  | cons x rest ih =>
    intro i hfail
    by_cases hq : quorumProbe env i
    · simp [keyLoop, hq] at hfail
    · rcases hs : env.submit i with _ | _ | _ | _ | _ | sealed <;>
        simp [keyLoop, hq, hs] at hfail ⊢ <;>
        first
        | exact ih (i + 1) hfail
        | (rcases sealed with _ | _ <;> simp_all [ih (i + 1)])

/-- Claim C8: within one protocol run whose first probe reports 503, no
marshal, request-construction, transport or decode error on an individual
key terminates the run early — if the run returns an error, the key loop
entered an iteration for every key of the snapshot. -/
theorem C8_single_key_errors_never_abort
    (env : Env) (keys : List String)
    (hfp : env.firstProbe = .status 503)
    (hfail : (unsealRun env keys).ok = false) :
    (unsealRun env keys).processed = keys.length := by
  have hloopfail : (keyLoop env keys 0).ok = false := by
    by_contra hok
    have : (unsealRun env keys).ok = true := by
      simp [unsealRun, hfp, isAcceptable]
      simpa using hok
    simp [this] at hfail
  have := keyLoop_fail_processed_all env keys 0 hloopfail
  simp [unsealRun, hfp, isAcceptable, this]

/-- Claim C8, witness: a run meeting marshal, request, transport and decode
errors and `sealed = true` answers still iterates over all four keys before
failing. -/
theorem C8_single_key_errors_never_abort_witness :
    (unsealRun
        ⟨.status 503, fun _ => .status 503,
          fun i => if i = 0 then .marshalErr else if i = 1 then .transportErr
            else if i = 2 then .decodeErr else .sealedField true⟩
        ["k1", "k2", "k3", "k4"]).processed = 4 :=
  C8_single_key_errors_never_abort _ _ rfl (by decide)

/-- A successful fetch loop returns the accumulator extended by one value
per remaining iteration, each value being exactly what the secrets manager
answered for the corresponding key number, and each nonempty. -/
lemma fetchLoop_ok_spec (get : Nat → GetResult) (ids : Nat → Option String)
    (allow : Bool) :
    ∀ (remaining i : Nat) (acc ks : List String),
      fetchLoop get ids allow i remaining acc = .ok ks →
      ks.length = acc.length + remaining ∧
      (∀ j, j < acc.length → ks.get? j = acc.get? j) ∧
      (∀ j, j < remaining → ∃ v, get (i + j) = .ok v ∧ v ≠ "" ∧
        ks.get? (acc.length + j) = some v) := by
  intro remaining
  induction remaining with
  | zero =>
    intro i acc ks h
    simp only [fetchLoop] at h
    injection h with h
    subst h
    exact ⟨rfl, fun j _ => rfl, fun j hj => by omega⟩
  | succ r ih =>
    intro i acc ks h
    simp only [fetchLoop] at h
    rcases hid : ids i with _ | id
    · simp [hid] at h
    rcases hget : get i with v | isAuth
    swap
    · simp only [hid, hget] at h
      split at h <;> simp at h
    by_cases hv : v = ""
    · simp [hid, hget, hv] at h
    simp only [hid, hget, if_neg hv] at h
    obtain ⟨hlen, hpre, hnew⟩ := ih (i + 1) (acc ++ [v]) ks h
    refine ⟨by simp at hlen; omega, ?_, ?_⟩
    · intro j hj
      have := hpre j (by simp; omega)
      rwa [List.get?_append hj] at this
    · intro j hj
      match j with
      | 0 =>
        refine ⟨v, by simpa using hget, hv, ?_⟩
        have := hpre acc.length (by simp)
        rw [Nat.add_zero, this, List.get?_concat_length]
      | j' + 1 =>
        obtain ⟨w, hw, hwne, hws⟩ := hnew j' (by omega)
        refine ⟨w, ?_, hwne, ?_⟩
        · have heq : i + 1 + j' = i + (j' + 1) := by omega
          rwa [heq] at hw
        · have heq : (acc ++ [v]).length + j' = acc.length + (j' + 1) := by
            simp; omega
          rwa [heq] at hws

/-- Claim C3: a key-refresh call either succeeds and swaps the cache in a
single replacement for exactly the four freshly fetched, nonempty secret
values of the pass that succeeded (depth 1 before re-login, depth 0 after),
or fails — for any reason — and leaves the cache exactly as it was. -/
theorem C3_refresh_atomic_or_untouched (fenv : FetchEnv)
    (cache : List String) :
    ((fetchKeys fenv cache).ok = false →
      (fetchKeys fenv cache).cache = cache) ∧
    ((fetchKeys fenv cache).ok = true →
      (fetchKeys fenv cache).cache.length = 4 ∧
      ∃ d, d ≤ 1 ∧ ∀ j, j < 4 → ∃ v, fenv.get d (1 + j) = .ok v ∧
        v ≠ "" ∧ (fetchKeys fenv cache).cache.get? j = some v) := by
  unfold fetchKeys doFetchKeys
  rcases h1 : fetchLoop (fenv.get 1) fenv.ids true 1 4 [] with ks | _ | _
  · obtain ⟨hlen, _, hnew⟩ := fetchLoop_ok_spec (fenv.get 1) fenv.ids true 4 1 [] ks h1
    refine ⟨by simp, fun _ => ⟨by simpa using hlen, 1, le_refl 1, ?_⟩⟩
    intro j hj
    obtain ⟨v, hv, hvne, hvs⟩ := hnew j hj
    exact ⟨v, hv, hvne, by simpa using hvs⟩
  · simp
  · rcases h2 : fenv.relogin with _ | _
    · unfold doFetchKeys
      rcases h3 : fetchLoop (fenv.get 0) fenv.ids false 1 4 [] with ks | _ | _
      · obtain ⟨hlen, _, hnew⟩ :=
          fetchLoop_ok_spec (fenv.get 0) fenv.ids false 4 1 [] ks h3
        refine ⟨by simp, fun _ => ⟨by simpa using hlen, 0, by omega, ?_⟩⟩
        intro j hj
        obtain ⟨v, hv, hvne, hvs⟩ := hnew j hj
        exact ⟨v, hv, hvne, by simpa using hvs⟩
      · simp
      · simp
    · simp

/-- Claim C3, witness: a refresh whose first pass hits a non-auth error
leaves a concrete cache untouched. -/
theorem C3_refresh_atomic_or_untouched_witness :
    (fetchKeys ⟨fun _ => some "id", fun _ _ => .err false, .ok⟩
        ["old1", "old2"]).cache = ["old1", "old2"] :=
  (C3_refresh_atomic_or_untouched
      ⟨fun _ => some "id", fun _ _ => .err false, .ok⟩
      ["old1", "old2"]).1 (by decide)

/-- Claim C5: a key fetch with re-login allowed performs at most one
re-login and at most two full fetch passes; when the first pass ends in an
authentication error and the re-login succeeds, exactly one re-login and
exactly one further full fetch pass happen, and a failure of that second
pass is surfaced as an error with no further attempt. -/
theorem C5_relogin_bounded (fenv : FetchEnv) (cache : List String) :
    (fetchKeys fenv cache).relogins ≤ 1 ∧
    (fetchKeys fenv cache).passes ≤ 2 ∧
    (fetchLoop (fenv.get 1) fenv.ids true 1 4 [] = .authErr →
      fenv.relogin = .ok →
        (fetchKeys fenv cache).relogins = 1 ∧
        (fetchKeys fenv cache).passes = 2 ∧
        (fetchLoop (fenv.get 0) fenv.ids false 1 4 [] = .err →
          (fetchKeys fenv cache).ok = false ∧
          (fetchKeys fenv cache).cache = cache)) := by
  unfold fetchKeys doFetchKeys
  rcases h1 : fetchLoop (fenv.get 1) fenv.ids true 1 4 [] with ks | _ | _
  · simp
  · simp
  · rcases h2 : fenv.relogin with _ | _
    · unfold doFetchKeys
      rcases h3 : fetchLoop (fenv.get 0) fenv.ids false 1 4 [] with ks | _ | _ <;>
        simp [h3]
    · simp

/-- Claim C5, witness: a persistent auth error triggers exactly one
re-login and one re-fetch pass, then surfaces an error with the cache
untouched. -/
theorem C5_relogin_bounded_witness :
    (fetchKeys ⟨fun _ => some "id", fun _ _ => .err true, .ok⟩
        ["old"]).relogins = 1 ∧
    (fetchKeys ⟨fun _ => some "id", fun _ _ => .err true, .ok⟩
        ["old"]).passes = 2 ∧
    (fetchKeys ⟨fun _ => some "id", fun _ _ => .err true, .ok⟩
        ["old"]).ok = false :=
  have h := (C5_relogin_bounded
    ⟨fun _ => some "id", fun _ _ => .err true, .ok⟩ ["old"]).2.2
    (by decide) (by decide)
  ⟨h.1, h.2.1, (h.2.2 (by decide)).1⟩

/-- Claim C10: TLS certificate verification is enabled exactly when the raw
`VERIFY_CERT` value (empty when the variable is unset) is empty or is
exactly the string "true"; any other value — "TRUE", "1", "yes", ... —
makes the transport skip certificate verification for all target
connections. -/
theorem C10_verify_cert_toggle (raw : String) :
    (verifyCert raw = true ↔ raw = "" ∨ raw = "true") ∧
    (insecureSkipVerify raw = true ↔ ¬ (raw = "" ∨ raw = "true")) := by
  unfold insecureSkipVerify verifyCert getEnvD
  by_cases h : raw = "" <;> simp [h]

/-- Claim C10, witness: the value "TRUE" silently disables certificate
verification, while the empty (unset) value keeps it enabled. -/
theorem C10_verify_cert_toggle_witness :
    insecureSkipVerify "TRUE" = true ∧ verifyCert "" = true :=
  ⟨(C10_verify_cert_toggle "TRUE").2.mpr (by decide),
   (C10_verify_cert_toggle "").1.mpr (Or.inl rfl)⟩

end VaultUnsealer
